import Mathlib

/-!
Shallow embedding of `src/main.py` (pycontainer): a minimal Python container
runner built from cgroups v2, a busybox rootfs and `unshare`/`chroot`.

The embedding models:
* the Python exception kinds the program can raise or catch;
* `CGroupManager` (create / add_process / cleanup) as transitions on an
  explicit system state, with the exact strings written to the cgroup files;
* `RootFSManager` (create / _setup_busybox / _copy_bash / cleanup), with the
  `bin/` directory of the rootfs modelled as an association list of entries
  (regular files and symbolic links) so that the `link.exists()` /
  `symlink_to` behaviour is captured faithfully;
* `Container.run` with its `try/except KeyboardInterrupt/except
  Exception/finally` control flow, producing an exit code, a final system
  state and a trace of the operations invoked.

Host-dependent outcomes (which paths exist, whether `ldd` is installed,
whether kernel operations fail) are supplied by a `Host` record, so theorems
quantify over every possible host behaviour.
-/

namespace PyContainer

/-- Kinds of Python exceptions relevant to this program.  `keyboardInterrupt`
models `KeyboardInterrupt`, which derives from `BaseException` and is *not*
caught by `except Exception`; all other kinds derive from `Exception`.
`fileNotFoundError` and `fileExistsError` are subclasses of `OSError`. -/
inductive PyExc where
  | keyboardInterrupt
  | osError
  | fileNotFoundError
  | fileExistsError
  | calledProcessError
  | runtimeError (msg : String)
  deriving DecidableEq, Repr

/-- Whether an exception is caught by `except OSError` (Python class
hierarchy: `FileNotFoundError` and `FileExistsError` derive from `OSError`). -/
def PyExc.isOSError : PyExc → Bool
  | .osError => true
  | .fileNotFoundError => true
  | .fileExistsError => true
  | _ => false

/-- An entry of the rootfs `bin/` directory: a regular file (e.g. the copied
busybox binary) or a symbolic link with the given target name. -/
inductive Entry where
  | file
  | symlink (target : String)
  deriving DecidableEq, Repr

/-- The `bin/` directory of the rootfs: an association list from entry name
to entry, newest first. -/
abbrev BinDir := List (String × Entry)

/-- Look up the entry stored under a name (without following links). -/
def BinDir.find? (b : BinDir) (n : String) : Option Entry :=
  match b with
  | [] => none
  | (m, e) :: rest => if n = m then some e else BinDir.find? rest n

/-- Create or overwrite a regular file at `n` (models `shutil.copy2` into a
fresh directory plus `chmod`). -/
def BinDir.setFile (b : BinDir) (n : String) : BinDir :=
  (n, Entry.file) :: b

/-- `pathlib.Path.exists()` on `bin/<n>`: follows symbolic links, with a
fuel bound standing for the kernel's symlink-resolution limit (a loop yields
`ELOOP`, which `exists()` reports as `False`); a broken link also reports
`False`. -/
def BinDir.existsAt (b : BinDir) : Nat → String → Bool
  | 0, _ => false
  | fuel + 1, n =>
    match BinDir.find? b n with
    | none => false
    | some Entry.file => true
    | some (Entry.symlink t) => BinDir.existsAt b fuel t

/-- One iteration of the symlink-creation loop of `_setup_busybox`:
`if not link.exists(): link.symlink_to('busybox')`.  `Path.symlink_to`
(i.e. `os.symlink`) raises `FileExistsError` whenever *any* entry — even a
broken symbolic link — already occupies the path. -/
def linkStep (b : BinDir) (cmd : String) : Except PyExc BinDir :=
  if BinDir.existsAt b 40 cmd then .ok b
  else
    match BinDir.find? b cmd with
    | some _ => .error .fileExistsError
    | none => .ok ((cmd, Entry.symlink "busybox") :: b)

/-- The fixed command-name set of `_setup_busybox`. -/
def commands : List String :=
  ["sh", "ls", "cat", "echo", "ps", "sleep", "mkdir", "rm", "cp", "mv"]

/-- The symlink-creation loop of `_setup_busybox` over a given name list. -/
def setupLinksAux (b : BinDir) : List String → Except PyExc BinDir
  | [] => .ok b
  | c :: cs =>
    match linkStep b c with
    | .error e => .error e
    | .ok b' => setupLinksAux b' cs

/-- The symlink-creation loop of `_setup_busybox` over the fixed command
set. -/
def setupLinks (b : BinDir) : Except PyExc BinDir :=
  setupLinksAux b commands

/-- The fixed ordered host search list for the busybox binary. -/
def busybox_paths : List String :=
  ["/usr/bin/busybox", "/bin/busybox", "/usr/bin/busybox-static"]

/-- The search loop of `_setup_busybox`: the first path of `busybox_paths`
that exists on the host, if any. -/
def findBusybox (pathExists : String → Bool) : Option String :=
  busybox_paths.find? (fun p => pathExists p)

/-- Python's `str.split()` (no argument): split on runs of whitespace,
discarding empty pieces. -/
def pySplit (s : String) : List String :=
  (s.split fun c => c.isWhitespace).filter (fun p => p ≠ "")

/-- One line of the `ldd` output parse in `_copy_bash`:

* if the line contains `"=>"`, take `line.split('=>')[1].strip().split()`
  and keep its first word when that path exists on the host;
* else if the stripped line starts with `/`, take its first word;
* a candidate is copied only when `os.path.exists` holds for it (the final
  `if lib_path and os.path.exists(lib_path)` check). -/
def parseLddLine (pathExists : String → Bool) (line : String) : Option String :=
  let lib_path : Option String :=
    if 2 ≤ (line.splitOn "=>").length then
      match pySplit (((line.splitOn "=>").getD 1 "").trim) with
      | [] => none
      | p :: _ => if pathExists p then some p else none
    else if line.trim.startsWith "/" then
      match pySplit line.trim with
      | [] => none
      | p :: _ => some p
    else none
  match lib_path with
  | some p => if pathExists p then some p else none
  | none => none

/-- The library-copy loop of `_copy_bash` over the lines of `ldd`'s standard
output: the host paths of the libraries copied into the rootfs, in order,
each copied at most once (`if not dst.exists()`). -/
def parseLdd (pathExists : String → Bool) (stdout : String) : List String :=
  (stdout.splitOn "\n").foldl
    (fun acc line =>
      match parseLddLine pathExists line with
      | some p => if acc.contains p then acc else acc ++ [p]
      | none => acc)
    []

/-- `ContainerConfig` from the source (defaults included). -/
structure ContainerConfig where
  name : String
  memory_mb : Int := 50
  cpu_percent : Int := 25
  command : String := "/bin/sh"

/-- Host-environment behaviour observed by one run: which paths exist,
whether the tools are available, and which kernel operations fail.  `none`
in an `Option PyExc` field means the operation succeeds; `some e` means it
raises `e`. -/
structure Host where
  /-- pid of the orchestrating Python process, `os.getpid()`. -/
  selfPid : Nat
  /-- `os.path.exists` on the host filesystem. -/
  pathExists : String → Bool
  /-- failure injected into `Path.mkdir` of the cgroup directory. -/
  cgroupMkdirExc : Option PyExc
  /-- failure injected into the `write_text` calls configuring the limits. -/
  cgroupWriteExc : Option PyExc
  /-- failure injected into the `write_text` call of `add_process`. -/
  addProcessExc : Option PyExc
  /-- whether the `ldd` executable is available on the host. -/
  lddAvailable : Bool
  /-- standard output produced by `ldd /usr/bin/bash` when it runs. -/
  lddStdout : String
  /-- outcome of `subprocess.run(['unshare', ...])`: the child's return
  code, or an exception (`KeyboardInterrupt` while waiting,
  `FileNotFoundError` if `unshare` is missing, ...). -/
  launch : Except PyExc Int
  /-- failure injected into `shutil.rmtree` of the rootfs. -/
  rmtreeExc : Option PyExc

/-- System state touched by one run: the cgroup directory with its files and
member pids, and the rootfs temporary directory with its `bin/` contents. -/
structure Sys where
  /-- `/sys/fs/cgroup/<name>` exists. -/
  cgroupDir : Bool := false
  /-- contents of the files written inside the cgroup directory. -/
  cgroupFiles : List (String × String) := []
  /-- pids enrolled via `cgroup.procs`. -/
  cgroupProcs : List Nat := []
  /-- `self.rootfs` is not `None` (the manager recorded a path). -/
  rootfsSet : Bool := false
  /-- the rootfs temporary directory exists on the host. -/
  rootfsDir : Bool := false
  /-- contents of `<rootfs>/bin`. -/
  bin : BinDir := []
  /-- host paths of the libraries copied under the rootfs by `_copy_bash`. -/
  libs : List String := []
  deriving DecidableEq, Repr

/-- Update (or create) a file of the cgroup directory, modelling
`write_text` (an overwrite). -/
def setFile (fs : List (String × String)) (n v : String) : List (String × String) :=
  match fs with
  | [] => [(n, v)]
  | (m, w) :: rest => if m = n then (n, v) :: rest else (m, w) :: setFile rest n v

/-- Read a file of the cgroup directory. -/
def getFile (fs : List (String × String)) (n : String) : Option String :=
  match fs with
  | [] => none
  | (m, w) :: rest => if m = n then some w else getFile rest n

/-- Events recorded by a run, in invocation order. -/
inductive Ev where
  | cgroupCreate
  | rootfsCreate
  | addProcess (pid : Nat)
  | launch
  | cgroupCleanup
  | rootfsCleanup
  deriving DecidableEq, Repr

namespace CGroupManager

/-- `CGroupManager.create`: `mkdir(exist_ok=True)` on the cgroup directory,
then `write_text` of the memory ceiling (`str(memory_mb * 1024 * 1024)`) to
`memory.max` and of the CPU quota (`f"{cpu_percent * 1000} 100000"`) to
`cpu.max`.  Returns the outcome together with the state reached (on a write
failure the directory already exists). -/
def create (h : Host) (memory_mb cpu_percent : Int) (s : Sys) :
    Except PyExc Unit × Sys :=
  match h.cgroupMkdirExc with
  | some e => (.error e, s)
  | none =>
    let s := { s with cgroupDir := true }
    match h.cgroupWriteExc with
    | some e => (.error e, s)
    | none =>
      let s := { s with
        cgroupFiles :=
          setFile
            (setFile s.cgroupFiles "memory.max" (toString (memory_mb * 1024 * 1024)))
            "cpu.max" (toString (cpu_percent * 1000) ++ " 100000") }
      (.ok (), s)

/-- `CGroupManager.add_process`: `write_text(str(pid))` on `cgroup.procs`,
which enrolls the pid into the group's membership. -/
def add_process (h : Host) (pid : Nat) (s : Sys) : Except PyExc Unit × Sys :=
  match h.addProcessExc with
  | some e => (.error e, s)
  | none => (.ok (), { s with cgroupProcs := s.cgroupProcs ++ [pid] })

/-- Raw `Path.rmdir` on the cgroup directory: fails with `FileNotFoundError`
if the directory is already gone and with `OSError` (`EBUSY`) if the group
still has member processes; every failure of `rmdir` is an `OSError`. -/
def rmdir (s : Sys) : Except PyExc Sys :=
  if s.cgroupDir = false then .error .fileNotFoundError
  else if s.cgroupProcs ≠ [] then .error .osError
  else .ok { s with cgroupDir := false, cgroupFiles := [] }

/-- `CGroupManager.cleanup`: `try: rmdir() except OSError: pass`. -/
def cleanup (s : Sys) : Except PyExc Sys :=
  match rmdir s with
  | .error e => if e.isOSError then .ok s else .error e
  | .ok s' => .ok s'

end CGroupManager

namespace RootFSManager

/-- `_setup_busybox`: search the fixed path list; if nothing is found return
`False` without touching `bin/`; otherwise copy the binary to `bin/busybox`
(`shutil.copy2` + `chmod 0o755`) and run the symlink-creation loop, then
return `True`. -/
def setup_busybox (h : Host) (b : BinDir) : Except PyExc (Bool × BinDir) :=
  match findBusybox h.pathExists with
  | none => .ok (false, b)
  | some _ =>
    let b := BinDir.setFile b "busybox"
    match setupLinks b with
    | .error e => .error e
    | .ok b' => .ok (true, b')

/-- Body of the `try` block in `_copy_bash`: run `ldd` on the host's bash
and copy each resolved library.  `subprocess.run` is called with
`check=False`, so it never raises `CalledProcessError`; when the `ldd`
executable itself is absent it raises `FileNotFoundError`. -/
def lddAndCopy (h : Host) : Except PyExc (List String) :=
  if h.lddAvailable then .ok (parseLdd h.pathExists h.lddStdout)
  else .error .fileNotFoundError

/-- The `except subprocess.CalledProcessError: pass` handler wrapped around
`lddAndCopy`: only that one exception kind is swallowed (leaving the
libraries partially copied); every other exception propagates. -/
def catchCPE (r : Except PyExc (List String)) : Except PyExc (List String) :=
  match r with
  | .error .calledProcessError => .ok []
  | r => r

/-- `_copy_bash`: if `/usr/bin/bash` does not exist, return immediately;
otherwise copy it to `bin/bash` with executable permission, then run the
guarded `ldd` step. -/
def copy_bash (h : Host) (b : BinDir) : Except PyExc (BinDir × List String) :=
  if h.pathExists "/usr/bin/bash" then
    let b := BinDir.setFile b "bash"
    match catchCPE (lddAndCopy h) with
    | .error e => .error e
    | .ok libs => .ok (b, libs)
  else .ok (b, [])

/-- `RootFSManager.create`: allocate a fresh temporary directory
(`tempfile.mkdtemp`, modelled as always succeeding and recording the path in
`self.rootfs`), create the skeleton directories, install busybox — raising
`RuntimeError` when `_setup_busybox` reports `False` — then run
`_copy_bash`. -/
def create (h : Host) (s : Sys) : Except PyExc Unit × Sys :=
  let s := { s with rootfsSet := true, rootfsDir := true, bin := [], libs := [] }
  match setup_busybox h s.bin with
  | .error e => (.error e, s)
  | .ok (false, b) =>
    (.error (.runtimeError "BusyBox недоступен. Установите: apt install busybox-static"),
     { s with bin := b })
  | .ok (true, b) =>
    let s := { s with bin := b }
    match copy_bash h s.bin with
    | .error e => (.error e, s)
    | .ok (b', libs) => (.ok (), { s with bin := b', libs := libs })

/-- `RootFSManager.cleanup`: `if self.rootfs and self.rootfs.exists():
shutil.rmtree(self.rootfs)` — no exception handling of its own, so a failing
`rmtree` propagates. -/
def cleanup (h : Host) (s : Sys) : Except PyExc Sys :=
  if s.rootfsSet ∧ s.rootfsDir then
    match h.rmtreeExc with
    | some e => .error e
    | none => .ok { s with rootfsDir := false, bin := [], libs := [] }
  else .ok s

end RootFSManager

namespace Container

/-- The body of the `try` block in `Container.run`: cgroup creation, rootfs
creation, self-enrollment (`add_process(os.getpid())`), then the
`subprocess.run(['unshare', ..., 'chroot', rootfs, command])` launch.
Returns the outcome, the state reached, and the trace of invoked steps. -/
def runBody (h : Host) (cfg : ContainerConfig) (s : Sys) :
    Except PyExc Int × Sys × List Ev :=
  match CGroupManager.create h cfg.memory_mb cfg.cpu_percent s with
  | (.error e, s) => (.error e, s, [.cgroupCreate])
  | (.ok _, s) =>
    match RootFSManager.create h s with
    | (.error e, s) => (.error e, s, [.cgroupCreate, .rootfsCreate])
    | (.ok _, s) =>
      match CGroupManager.add_process h h.selfPid s with
      | (.error e, s) => (.error e, s, [.cgroupCreate, .rootfsCreate])
      | (.ok _, s) =>
        match h.launch with
        | .error e =>
          (.error e, s, [.cgroupCreate, .rootfsCreate, .addProcess h.selfPid, .launch])
        | .ok rc =>
          (.ok rc, s, [.cgroupCreate, .rootfsCreate, .addProcess h.selfPid, .launch])

/-- `Container._cleanup`: `self.cgroup.cleanup()` then
`self.rootfs_mgr.cleanup()`; if the first raised, the second would be
skipped. -/
def cleanupStep (h : Host) (s : Sys) : Except PyExc Unit × Sys × List Ev :=
  match CGroupManager.cleanup s with
  | .error e => (.error e, s, [.cgroupCleanup])
  | .ok s1 =>
    match RootFSManager.cleanup h s1 with
    | .error e => (.error e, s1, [.cgroupCleanup, .rootfsCleanup])
    | .ok s2 => (.ok (), s2, [.cgroupCleanup, .rootfsCleanup])

/-- Result of one `Container.run`: the value returned to the caller (or the
exception escaping the `finally` block), the final system state, and the
trace of invoked steps. -/
structure RunOut where
  result : Except PyExc Int
  sys : Sys
  trace : List Ev
  deriving Repr

/-- `Container.run`: run the body under
`try ... except KeyboardInterrupt: return 130 except Exception: return 1
finally: self._cleanup()`.  `KeyboardInterrupt` derives from `BaseException`,
so it is only caught by its dedicated handler; every other modelled
exception kind derives from `Exception`.  An exception raised inside
`finally` replaces the pending return value. -/
def run (h : Host) (cfg : ContainerConfig) : RunOut :=
  let (r, s, tr) := runBody h cfg {}
  let handled : Except PyExc Int :=
    match r with
    | .ok rc => .ok rc
    | .error .keyboardInterrupt => .ok 130
    | .error _ => .ok 1
  let (cr, s2, ctr) := cleanupStep h s
  { result := match cr with | .ok _ => handled | .error e => .error e
    sys := s2
    trace := tr ++ ctr }

end Container

/-- Setup steps 1–3 of `run` all succeed on this host: the cgroup can be
created and configured, some busybox path exists, a present bash implies the
`ldd` tool is available (so `_copy_bash` completes), and self-enrollment
succeeds. -/
def Host.setupOk (h : Host) : Prop :=
  h.cgroupMkdirExc = none ∧ h.cgroupWriteExc = none ∧
  (findBusybox h.pathExists).isSome = true ∧
  (h.pathExists "/usr/bin/bash" = true → h.lddAvailable = true) ∧
  h.addProcessExc = none

/-- One `bin/` directory extends another: every entry of the first is still
present, unchanged, in the second. -/
def BinExt (b b' : BinDir) : Prop :=
  ∀ n e, BinDir.find? b n = some e → BinDir.find? b' n = some e

/-- Invariant of the symlink-creation loop: `bin/busybox` is a regular file
and every entry already present at a remaining command name resolves. -/
def goodBin (b : BinDir) (cs : List String) : Prop :=
  BinDir.find? b "busybox" = some Entry.file ∧
  ∀ c ∈ cs, BinDir.find? b c ≠ none → BinDir.existsAt b 40 c = true

/-- A host on which every setup step and the launch succeed: busybox at the
first search path, no bash, the launched command exits with status 0. -/
def hostGood : Host :=
  { selfPid := 42
    pathExists := fun p => p = "/usr/bin/busybox"
    cgroupMkdirExc := none
    cgroupWriteExc := none
    addProcessExc := none
    lddAvailable := true
    lddStdout := ""
    launch := .ok 0
    rmtreeExc := none }

/-- Like `hostGood`, but a `KeyboardInterrupt` arrives while waiting for the
launched process. -/
def hostKI : Host := { hostGood with launch := .error .keyboardInterrupt }

/-- Like `hostGood`, but creating the cgroup directory fails with `OSError`
(e.g. insufficient privilege). -/
def hostMkdirFail : Host := { hostGood with cgroupMkdirExc := some .osError }

/-- A host on which no path exists at all — in particular busybox is absent
from every search location. -/
def hostAbsent : Host := { hostGood with pathExists := fun _ => false }

/-- A host with busybox and bash present but no `ldd` executable. -/
def hostNoLdd : Host :=
  { hostGood with
    pathExists := fun p => p = "/usr/bin/busybox" || p = "/usr/bin/bash"
    lddAvailable := false }

/-- Like `hostGood`, but `shutil.rmtree` of the rootfs fails with `OSError`. -/
def hostRmtreeFail : Host := { hostGood with rmtreeExc := some .osError }

/-- A state in which the rootfs was recorded and its directory exists. -/
def sysLive : Sys := { rootfsSet := true, rootfsDir := true }

/-- The demo configuration. -/
def cfgDemo : ContainerConfig := { name := "demo" }

/-- A `bin/` directory holding the busybox binary and a pre-existing regular
file at one command name. -/
def binSeed : BinDir := [("busybox", Entry.file), ("ls", Entry.file)]

/-- A `bin/` directory holding the busybox binary and a dangling symbolic
link at the first command name. -/
def binDangling : BinDir := [("busybox", Entry.file), ("sh", Entry.symlink "dash")]

/-! ## Helper lemmas -/

theorem cleanup_never_raises (s : Sys) : ∃ s', CGroupManager.cleanup s = .ok s' := by
  unfold CGroupManager.cleanup CGroupManager.rmdir
  by_cases h1 : s.cgroupDir = false
  · simp [h1, PyExc.isOSError]
  · by_cases h2 : s.cgroupProcs = [] <;> simp [h1, h2, PyExc.isOSError]

theorem cleanupStep_trace (h : Host) (s : Sys) :
    (Container.cleanupStep h s).2.2 = [Ev.cgroupCleanup, Ev.rootfsCleanup] := by
  obtain ⟨s', hs'⟩ := cleanup_never_raises s
  cases hr : RootFSManager.cleanup h s' <;>
    simp [Container.cleanupStep, hs', hr]

theorem rootfs_cleanup_ok_of_rmtree_ok (h : Host) (s : Sys) (hrm : h.rmtreeExc = none) :
    ∃ s', RootFSManager.cleanup h s = .ok s' := by
  unfold RootFSManager.cleanup
  rw [hrm]
  split <;> exact ⟨_, rfl⟩

theorem cleanupStep_ok (h : Host) (s : Sys) (hrm : h.rmtreeExc = none) :
    ∃ s2, Container.cleanupStep h s = (.ok (), s2, [Ev.cgroupCleanup, Ev.rootfsCleanup]) := by
  obtain ⟨s', hs'⟩ := cleanup_never_raises s
  obtain ⟨s2, hs2⟩ := rootfs_cleanup_ok_of_rmtree_ok h s' hrm
  exact ⟨s2, by simp [Container.cleanupStep, hs', hs2]⟩

theorem run_eq (h : Host) (cfg : ContainerConfig) :
    Container.run h cfg =
      { result :=
          match (Container.cleanupStep h (Container.runBody h cfg {}).2.1).1 with
          | .ok _ =>
            match (Container.runBody h cfg {}).1 with
            | .ok rc => .ok rc
            | .error .keyboardInterrupt => .ok 130
            | .error _ => .ok 1
          | .error e => .error e
        sys := (Container.cleanupStep h (Container.runBody h cfg {}).2.1).2.1
        trace := (Container.runBody h cfg {}).2.2 ++
          (Container.cleanupStep h (Container.runBody h cfg {}).2.1).2.2 } := by
  rcases hb : Container.runBody h cfg {} with ⟨r, s, tr⟩
  rcases hc : Container.cleanupStep h s with ⟨cr, s2, ctr⟩
  simp only [Container.run, hb, hc]

theorem run_result_of_rmtree_ok (h : Host) (cfg : ContainerConfig)
    (hrm : h.rmtreeExc = none) :
    (Container.run h cfg).result =
      match (Container.runBody h cfg {}).1 with
      | .ok rc => .ok rc
      | .error .keyboardInterrupt => .ok 130
      | .error _ => .ok 1 := by
  rw [run_eq]
  obtain ⟨s2, hs2⟩ := cleanupStep_ok h (Container.runBody h cfg {}).2.1 hrm
  rw [hs2]

theorem runBody_trace_cases (h : Host) (cfg : ContainerConfig) (s : Sys) :
    (Container.runBody h cfg s).2.2 = [Ev.cgroupCreate] ∨
    (Container.runBody h cfg s).2.2 = [Ev.cgroupCreate, Ev.rootfsCreate] ∨
    (Container.runBody h cfg s).2.2 =
      [Ev.cgroupCreate, Ev.rootfsCreate, Ev.addProcess h.selfPid, Ev.launch] := by
  unfold Container.runBody
  repeat' split
  all_goals simp

theorem getFile_setFile_self (fs : List (String × String)) (n v : String) :
    getFile (setFile fs n v) n = some v := by
  induction fs with
  | nil => simp [setFile, getFile]
  | cons hd tl ih =>
    obtain ⟨m, w⟩ := hd
    by_cases hmn : m = n <;> simp [setFile, getFile, hmn, ih]

theorem getFile_setFile_ne (fs : List (String × String)) (n n' v : String)
    (hne : n' ≠ n) : getFile (setFile fs n' v) n = getFile fs n := by
  induction fs with
  | nil => simp [setFile, getFile, hne]
  | cons hd tl ih =>
    obtain ⟨m, w⟩ := hd
    by_cases hmn : m = n'
    · subst hmn
      simp [setFile, getFile, hne]
    · simp [setFile, getFile, hmn, ih]

theorem findBusybox_none (pathExists : String → Bool)
    (habs : ∀ p ∈ busybox_paths, pathExists p = false) :
    findBusybox pathExists = none := by
  have h1 := habs "/usr/bin/busybox" (by simp [busybox_paths])
  have h2 := habs "/bin/busybox" (by simp [busybox_paths])
  have h3 := habs "/usr/bin/busybox-static" (by simp [busybox_paths])
  simp [findBusybox, busybox_paths, List.find?, h1, h2, h3]

theorem cgroup_create_ok (h : Host) (m c : Int) (s : Sys)
    (hmk : h.cgroupMkdirExc = none) (hwr : h.cgroupWriteExc = none) :
    CGroupManager.create h m c s =
      (.ok (), { s with
                  cgroupDir := true
                  cgroupFiles :=
                    setFile (setFile s.cgroupFiles "memory.max" (toString (m * 1024 * 1024)))
                      "cpu.max" (toString (c * 1000) ++ " 100000") }) := by
  simp [CGroupManager.create, hmk, hwr]

theorem copy_bash_ok (h : Host) (b : BinDir)
    (hbash : h.pathExists "/usr/bin/bash" = true → h.lddAvailable = true) :
    ∃ r, RootFSManager.copy_bash h b = .ok r := by
  unfold RootFSManager.copy_bash
  cases hp : h.pathExists "/usr/bin/bash" with
  | false => simp
  | true =>
    simp [RootFSManager.catchCPE, RootFSManager.lddAndCopy, hbash hp]

theorem rootfs_create_ok (h : Host) (s : Sys)
    (hbb : (findBusybox h.pathExists).isSome = true)
    (hbash : h.pathExists "/usr/bin/bash" = true → h.lddAvailable = true) :
    ∃ s', RootFSManager.create h s = (.ok (), s') := by
  obtain ⟨p, hp⟩ := Option.isSome_iff_exists.mp hbb
  obtain ⟨bb, hsl⟩ : ∃ bb, setupLinks (BinDir.setFile [] "busybox") = Except.ok bb :=
    ⟨_, rfl⟩
  obtain ⟨r, hcb⟩ := copy_bash_ok h bb hbash
  obtain ⟨b', libs⟩ := r
  refine ⟨{ s with
            rootfsSet := true
            rootfsDir := true
            bin := b'
            libs := libs }, ?_⟩
  simp [RootFSManager.create, RootFSManager.setup_busybox, hp, hsl, hcb]

theorem runBody_of_setupOk (h : Host) (cfg : ContainerConfig) (hok : h.setupOk) :
    (Container.runBody h cfg {}).1 = h.launch ∧
    (Container.runBody h cfg {}).2.2 =
      [Ev.cgroupCreate, Ev.rootfsCreate, Ev.addProcess h.selfPid, Ev.launch] := by
  obtain ⟨hmk, hwr, hbb, hbash, hap⟩ := hok
  obtain ⟨s2, hrc⟩ := rootfs_create_ok h
    { ({} : Sys) with
      cgroupDir := true
      cgroupFiles :=
        setFile (setFile ({} : Sys).cgroupFiles "memory.max"
            (toString (cfg.memory_mb * 1024 * 1024)))
          "cpu.max" (toString (cfg.cpu_percent * 1000) ++ " 100000") } hbb hbash
  have hcg := cgroup_create_ok h cfg.memory_mb cfg.cpu_percent {} hmk hwr
  cases hl : h.launch <;>
    simp [Container.runBody, hcg, hrc, CGroupManager.add_process, hap, hl]

/-- C1: for every `ContainerConfig` and every host behaviour — normal
completion, an exception in any setup or launch step, or a
`KeyboardInterrupt` while waiting — `Container.run` invokes
`CGroupManager.cleanup` and then `RootFSManager.cleanup` before returning:
its trace always ends with the two cleanup events. -/
theorem claim_C1_cleanup_on_every_exit_path (h : Host) (cfg : ContainerConfig) :
    ∃ pre, (Container.run h cfg).trace = pre ++ [Ev.cgroupCleanup, Ev.rootfsCleanup] := by
  refine ⟨(Container.runBody h cfg {}).2.2, ?_⟩
  rw [run_eq]
  simp [cleanupStep_trace]

/-- C2: when cleanup removal succeeds, `Container.run` returns the launched
process's exit status on normal completion, 130 on a `KeyboardInterrupt`
raised while waiting, and 1 when any (non-`KeyboardInterrupt`) exception is
raised in the cgroup-creation, rootfs-provisioning, enrollment or launch
steps. -/
theorem claim_C2_exit_codes (h : Host) (cfg : ContainerConfig)
    (hrm : h.rmtreeExc = none) :
    (h.setupOk → ∀ rc : Int, h.launch = .ok rc →
      (Container.run h cfg).result = .ok rc) ∧
    (h.setupOk → h.launch = .error .keyboardInterrupt →
      (Container.run h cfg).result = .ok 130) ∧
    (∀ e : PyExc, (Container.runBody h cfg {}).1 = .error e →
      e ≠ .keyboardInterrupt → (Container.run h cfg).result = .ok 1) := by
  have hres := run_result_of_rmtree_ok h cfg hrm
  refine ⟨?_, ?_, ?_⟩
  · intro hok rc hl
    have hb := (runBody_of_setupOk h cfg hok).1
    rw [hres, hb, hl]
  · intro hok hl
    have hb := (runBody_of_setupOk h cfg hok).1
    rw [hres, hb, hl]
  · intro e he hne
    rw [hres, he]
    cases e <;> simp_all

/-- C2 witness: on a host where everything succeeds the run returns the
child's exit status 0; with a `KeyboardInterrupt` while waiting it returns
130; with an `OSError` during cgroup creation it returns 1. -/
theorem claim_C2_exit_codes_witness :
    (Container.run hostGood cfgDemo).result = .ok 0 ∧
    (Container.run hostKI cfgDemo).result = .ok 130 ∧
    (Container.run hostMkdirFail cfgDemo).result = .ok 1 :=
  ⟨(claim_C2_exit_codes hostGood cfgDemo rfl).1 (by unfold Host.setupOk; decide) 0 rfl,
   (claim_C2_exit_codes hostKI cfgDemo rfl).2.1 (by unfold Host.setupOk; decide) rfl,
   (claim_C2_exit_codes hostMkdirFail cfgDemo rfl).2.2 .osError rfl (by decide)⟩

/-- C4: for every positive `memory_mb` (and any `cpu_percent`), after
`CGroupManager.create` the `memory.max` entry of the cgroup directory holds
exactly the decimal rendering of `memory_mb * 1024 * 1024`. -/
theorem claim_C4_memory_max (h : Host) (m c : Int) (s : Sys)
    (hpos : 0 < m)
    (hmk : h.cgroupMkdirExc = none) (hwr : h.cgroupWriteExc = none) :
    getFile ((CGroupManager.create h m c s).2).cgroupFiles "memory.max" =
      some (toString (m * 1024 * 1024)) := by
  rw [cgroup_create_ok h m c s hmk hwr]
  have h1 := getFile_setFile_ne
    (setFile s.cgroupFiles "memory.max" (toString (m * 1024 * 1024)))
    "memory.max" "cpu.max" (toString (c * 1000) ++ " 100000") (by decide)
  simp [h1, getFile_setFile_self]

/-- C4 witness: at `memory_mb = 50` the entry is the decimal string
"52428800" = 50 · 1024 · 1024. -/
theorem claim_C4_memory_max_witness :
    ((0:Int) < 50 ∧
      getFile ((CGroupManager.create hostGood 50 25 {}).2).cgroupFiles "memory.max" =
        some (toString ((50:Int) * 1024 * 1024))) ∧
    toString ((50:Int) * 1024 * 1024) = "52428800" :=
  ⟨⟨by decide, claim_C4_memory_max hostGood 50 25 {} (by decide) rfl rfl⟩, rfl⟩

/-- C5: for every `cpu_percent` (and any `memory_mb`), after
`CGroupManager.create` the `cpu.max` entry of the cgroup directory holds
exactly the string `"<cpu_percent*1000> 100000"`. -/
theorem claim_C5_cpu_max (h : Host) (m c : Int) (s : Sys)
    (hmk : h.cgroupMkdirExc = none) (hwr : h.cgroupWriteExc = none) :
    getFile ((CGroupManager.create h m c s).2).cgroupFiles "cpu.max" =
      some (toString (c * 1000) ++ " 100000") := by
  rw [cgroup_create_ok h m c s hmk hwr]
  simp [getFile_setFile_self]

/-- C5 witness: at `cpu_percent = 25` the entry is "25000 100000". -/
theorem claim_C5_cpu_max_witness :
    (getFile ((CGroupManager.create hostGood 50 25 {}).2).cgroupFiles "cpu.max" =
      some (toString ((25:Int) * 1000) ++ " 100000")) ∧
    toString ((25:Int) * 1000) ++ " 100000" = "25000 100000" :=
  ⟨claim_C5_cpu_max hostGood 50 25 {} rfl rfl, rfl⟩

/-- C3: whenever a run reaches the launch step, the orchestrating process's
own pid (`os.getpid()`) was enrolled into the cgroup immediately before the
launch, and every enrollment a run ever performs is of that pid — the
isolated child is never enrolled directly. -/
theorem claim_C3_enroll_before_launch (h : Host) (cfg : ContainerConfig)
    (hl : Ev.launch ∈ (Container.run h cfg).trace) :
    (∃ l r, (Container.run h cfg).trace =
      l ++ Ev.addProcess h.selfPid :: Ev.launch :: r) ∧
    ∀ p, Ev.addProcess p ∈ (Container.run h cfg).trace → p = h.selfPid := by
  have htr : (Container.run h cfg).trace =
      (Container.runBody h cfg {}).2.2 ++ [Ev.cgroupCleanup, Ev.rootfsCleanup] := by
    rw [run_eq]
    simp [cleanupStep_trace]
  rw [htr] at hl ⊢
  rcases runBody_trace_cases h cfg {} with h1 | h2 | h3
  · rw [h1] at hl; simp at hl
  · rw [h2] at hl; simp at hl
  · rw [h3]
    constructor
    · exact ⟨[Ev.cgroupCreate, Ev.rootfsCreate],
        [Ev.cgroupCleanup, Ev.rootfsCleanup], rfl⟩
    · intro p hp
      simp at hp
      exact hp

/-- C3 witness: on `hostGood` the launch happens, enrollment of pid 42
precedes it, and 42 is the only enrolled pid. -/
theorem claim_C3_enroll_before_launch_witness :
    Ev.launch ∈ (Container.run hostGood cfgDemo).trace ∧
    ((∃ l r, (Container.run hostGood cfgDemo).trace =
        l ++ Ev.addProcess hostGood.selfPid :: Ev.launch :: r) ∧
      ∀ p, Ev.addProcess p ∈ (Container.run hostGood cfgDemo).trace →
        p = hostGood.selfPid) :=
  ⟨by decide, claim_C3_enroll_before_launch hostGood cfgDemo (by decide)⟩

/-- C6: if busybox is absent from every location of the fixed search list
(and the cgroup steps and the rootfs removal themselves succeed), rootfs
provisioning fails with the `RuntimeError` the spec names
`MissingBaseImageError`, the run returns exit code 1, and afterwards neither
the cgroup directory nor the rootfs directory exists. -/
theorem claim_C6_busybox_absent (h : Host) (cfg : ContainerConfig)
    (habs : ∀ p ∈ busybox_paths, h.pathExists p = false)
    (hmk : h.cgroupMkdirExc = none) (hwr : h.cgroupWriteExc = none)
    (hrm : h.rmtreeExc = none) :
    (∀ s : Sys, (RootFSManager.create h s).1 =
      .error (.runtimeError "BusyBox недоступен. Установите: apt install busybox-static")) ∧
    (Container.run h cfg).result = .ok 1 ∧
    (Container.run h cfg).sys.cgroupDir = false ∧
    (Container.run h cfg).sys.rootfsDir = false := by
  have hfb := findBusybox_none h.pathExists habs
  have hcreate : ∀ s : Sys, RootFSManager.create h s =
      (.error (.runtimeError "BusyBox недоступен. Установите: apt install busybox-static"),
       { s with
          rootfsSet := true
          rootfsDir := true
          bin := []
          libs := [] }) := by
    intro s
    simp [RootFSManager.create, RootFSManager.setup_busybox, hfb]
  have hcg := cgroup_create_ok h cfg.memory_mb cfg.cpu_percent {} hmk hwr
  refine ⟨fun s => by rw [hcreate s], ?_⟩
  rw [run_eq]
  simp only [Container.runBody, hcg, hcreate, Container.cleanupStep,
    CGroupManager.cleanup, CGroupManager.rmdir, RootFSManager.cleanup,
    hrm, PyExc.isOSError]
  simp

/-- C6 witness: on a host where no path exists the run returns 1 and leaves
neither cgroup nor rootfs behind. -/
theorem claim_C6_busybox_absent_witness :
    ((∀ s : Sys, (RootFSManager.create hostAbsent s).1 =
      .error (.runtimeError "BusyBox недоступен. Установите: apt install busybox-static")) ∧
    (Container.run hostAbsent cfgDemo).result = .ok 1 ∧
    (Container.run hostAbsent cfgDemo).sys.cgroupDir = false ∧
    (Container.run hostAbsent cfgDemo).sys.rootfsDir = false) :=
  claim_C6_busybox_absent hostAbsent cfgDemo (by decide) rfl rfl rfl

/-- C7: the code does NOT swallow every error of the optional bash/library
copying step.  `subprocess.run` is invoked with `check=False`, so the
`except subprocess.CalledProcessError` handler can never fire; when bash is
present but the `ldd` executable is absent, `subprocess.run` raises
`FileNotFoundError`, which escapes `_copy_bash`, makes
`RootFSManager.create` fail, and the whole run returns 1 without ever
launching — contradicting the claim that `create()` still completes. -/
theorem claim_C7_ldd_missing_aborts_run :
    RootFSManager.copy_bash hostNoLdd [("busybox", Entry.file)] =
      .error .fileNotFoundError ∧
    (RootFSManager.create hostNoLdd {}).1 = .error .fileNotFoundError ∧
    (Container.run hostNoLdd cfgDemo).result = .ok 1 ∧
    Ev.launch ∉ (Container.run hostNoLdd cfgDemo).trace := by
  refine ⟨rfl, rfl, rfl, by decide⟩

/-- C8 counterexample: it is not true that `RootFSManager.cleanup` never
raises — when the rootfs exists and `shutil.rmtree` fails (there is no
`try/except` around it), the failure propagates. -/
theorem claim_C8_counterexample :
    ¬ ∀ (h : Host) (s : Sys), ∃ s', RootFSManager.cleanup h s = .ok s' := by
  intro hall
  obtain ⟨s', hs'⟩ := hall hostRmtreeFail sysLive
  simp [RootFSManager.cleanup, hostRmtreeFail, hostGood, sysLive] at hs'

/-- C8 (amended): `CGroupManager.cleanup` never raises (every `rmdir`
failure, including already-removed and still-referenced groups, is an
`OSError` and is suppressed); `RootFSManager.cleanup` treats an unset or
already-absent rootfs as a raising-nothing no-op, but it does not guard the
removal itself: it raises exactly when the rootfs exists and `rmtree`
fails. -/
theorem claim_C8_cleanup_amended (h : Host) (s : Sys) :
    (∃ s', CGroupManager.cleanup s = .ok s') ∧
    (¬ (s.rootfsSet = true ∧ s.rootfsDir = true) →
      RootFSManager.cleanup h s = .ok s) ∧
    ((∃ e, RootFSManager.cleanup h s = .error e) ↔
      (s.rootfsSet = true ∧ s.rootfsDir = true ∧ ∃ e, h.rmtreeExc = some e)) := by
  refine ⟨cleanup_never_raises s, ?_, ?_⟩
  · intro hno
    simp [RootFSManager.cleanup, hno]
  · unfold RootFSManager.cleanup
    by_cases hlive : s.rootfsSet = true ∧ s.rootfsDir = true
    · cases hrm : h.rmtreeExc <;> simp [hlive, hrm]
    · simp [hlive]
      intro h1 h2 x hx
      exact hlive ⟨h1, h2⟩

/-- C8 witness: a never-created rootfs is cleaned up as a no-op, and the
cgroup cleanup succeeds on the empty state. -/
theorem claim_C8_cleanup_amended_witness :
    RootFSManager.cleanup hostRmtreeFail {} = .ok {} ∧
    ∃ s', CGroupManager.cleanup ({} : Sys) = .ok s' :=
  ⟨(claim_C8_cleanup_amended hostRmtreeFail {}).2.1 (by decide),
   (claim_C8_cleanup_amended hostRmtreeFail {}).1⟩

/-! ## Lemmas about the `bin/` directory and the symlink loop -/

theorem binExt_rfl (b : BinDir) : BinExt b b := fun _ _ h => h

theorem binExt_trans {a b c : BinDir} (h1 : BinExt a b) (h2 : BinExt b c) :
    BinExt a c := fun n e h => h2 n e (h1 n e h)

theorem find?_cons (b : BinDir) (m : String) (x : Entry) (n : String) :
    BinDir.find? ((m, x) :: b) n = if n = m then some x else BinDir.find? b n := rfl

theorem binExt_cons (b : BinDir) (m : String) (x : Entry)
    (hm : BinDir.find? b m = none) : BinExt b ((m, x) :: b) := by
  intro n e he
  rw [find?_cons]
  split
  · next hnm =>
    rw [hnm] at he
    rw [hm] at he
    exact absurd he (by simp)
  · exact he

theorem existsAt_mono {b b' : BinDir} (hext : BinExt b b') :
    ∀ (fuel : Nat) (n : String),
      BinDir.existsAt b fuel n = true → BinDir.existsAt b' fuel n = true := by
  intro fuel
  induction fuel with
  | zero => intro n h; simp [BinDir.existsAt] at h
  | succ k ih =>
    intro n h
    cases hf : BinDir.find? b n with
    | none => simp [BinDir.existsAt, hf] at h
    | some e =>
      cases e with
      | file => simp [BinDir.existsAt, hext n _ hf]
      | symlink t =>
        simp [BinDir.existsAt, hf] at h
        simp [BinDir.existsAt, hext n _ hf]
        exact ih t h

theorem find?_ne_none_of_existsAt {b : BinDir} {fuel : Nat} {n : String}
    (h : BinDir.existsAt b fuel n = true) : BinDir.find? b n ≠ none := by
  cases fuel with
  | zero => simp [BinDir.existsAt] at h
  | succ k =>
    intro hn
    simp [BinDir.existsAt, hn] at h

theorem existsAt_chain {b : BinDir} {n t : String}
    (h1 : BinDir.find? b n = some (Entry.symlink t))
    (h2 : BinDir.find? b t = some Entry.file) :
    ∀ fuel : Nat, BinDir.existsAt b (fuel + 2) n = true := by
  intro fuel
  show BinDir.existsAt b (fuel + 1 + 1) n = true
  simp [BinDir.existsAt, h1, h2]

theorem existsAt_dangling {b : BinDir} {n t : String}
    (h1 : BinDir.find? b n = some (Entry.symlink t))
    (h2 : BinDir.find? b t = none) :
    ∀ fuel : Nat, BinDir.existsAt b fuel n = false := by
  intro fuel
  cases fuel with
  | zero => rfl
  | succ k =>
    simp [BinDir.existsAt, h1]
    cases k with
    | zero => rfl
    | succ k2 => simp [BinDir.existsAt, h2]

theorem setupLinksAux_spec :
    ∀ (cs : List String) (b : BinDir), goodBin b cs →
    ∃ b', setupLinksAux b cs = .ok b' ∧ BinExt b b' ∧
      BinDir.find? b' "busybox" = some Entry.file ∧
      (∀ c ∈ cs, BinDir.find? b c = none →
        BinDir.find? b' c = some (Entry.symlink "busybox")) ∧
      (∀ c ∈ cs, BinDir.existsAt b' 40 c = true) := by
  intro cs
  induction cs with
  | nil =>
    intro b hg
    exact ⟨b, rfl, binExt_rfl b, hg.1, by simp, by simp⟩
  | cons c cs ih =>
    intro b hg
    obtain ⟨hbb, hres⟩ := hg
    by_cases hex : BinDir.existsAt b 40 c = true
    · have hstep : linkStep b c = .ok b := by simp [linkStep, hex]
      obtain ⟨b', hok, hext, hbb', hmk, hall⟩ :=
        ih b ⟨hbb, fun c' hc' => hres c' (List.mem_cons_of_mem _ hc')⟩
      refine ⟨b', ?_, hext, hbb', ?_, ?_⟩
      · simp [setupLinksAux, hstep, hok]
      · intro c' hc' hnone
        rcases List.mem_cons.mp hc' with rfl | hc'
        · exact absurd hnone (find?_ne_none_of_existsAt hex)
        · exact hmk c' hc' hnone
      · intro c' hc'
        rcases List.mem_cons.mp hc' with rfl | hc'
        · exact existsAt_mono hext 40 c' hex
        · exact hall c' hc'
    · cases hf : BinDir.find? b c with
      | some e =>
        exact absurd (hres c (List.mem_cons_self c cs) (by simp [hf])) hex
      | none =>
        have hstep : linkStep b c = .ok ((c, Entry.symlink "busybox") :: b) := by
          simp [linkStep, hex, hf]
        have hext1 : BinExt b ((c, Entry.symlink "busybox") :: b) :=
          binExt_cons b c _ hf
        have hfc : BinDir.find? ((c, Entry.symlink "busybox") :: b) c =
            some (Entry.symlink "busybox") := by
          simp [find?_cons]
        have hbb1 : BinDir.find? ((c, Entry.symlink "busybox") :: b) "busybox" =
            some Entry.file := hext1 _ _ hbb
        have hexc : BinDir.existsAt ((c, Entry.symlink "busybox") :: b) 40 c = true := by
          simpa using existsAt_chain hfc hbb1 38
        have hg1 : goodBin ((c, Entry.symlink "busybox") :: b) cs := by
          refine ⟨hbb1, ?_⟩
          intro c' hc' hne
          by_cases hcc : c' = c
          · subst hcc; exact hexc
          · have heq : BinDir.find? ((c, Entry.symlink "busybox") :: b) c' =
                BinDir.find? b c' := by
              simp [find?_cons, hcc]
            rw [heq] at hne
            exact existsAt_mono hext1 40 c' (hres c' (List.mem_cons_of_mem _ hc') hne)
        obtain ⟨b', hok, hext2, hbb', hmk, hall⟩ :=
          ih ((c, Entry.symlink "busybox") :: b) hg1
        refine ⟨b', ?_, binExt_trans hext1 hext2, hbb', ?_, ?_⟩
        · simp [setupLinksAux, hstep, hok]
        · intro c' hc' hnone
          by_cases hcc : c' = c
          · subst hcc; exact hext2 _ _ hfc
          · rcases List.mem_cons.mp hc' with rfl | hc'
            · exact absurd rfl hcc
            · have h1 : BinDir.find? ((c, Entry.symlink "busybox") :: b) c' = none := by
                simp [find?_cons, hcc, hnone]
              exact hmk c' hc' h1
        · intro c' hc'
          rcases List.mem_cons.mp hc' with rfl | hc'
          · exact existsAt_mono hext2 40 c' hexc
          · exact hall c' hc'

theorem setupLinksAux_idem :
    ∀ (cs : List String) (b : BinDir),
      (∀ c ∈ cs, BinDir.existsAt b 40 c = true) → setupLinksAux b cs = .ok b := by
  intro cs
  induction cs with
  | nil => intro b _; rfl
  | cons c cs ih =>
    intro b hall
    have hex := hall c (List.mem_cons_self c cs)
    have hstep : linkStep b c = .ok b := by simp [linkStep, hex]
    simp [setupLinksAux, hstep]
    exact ih b (fun c' hc' => hall c' (List.mem_cons_of_mem _ hc'))

/-- C9: on a `bin/` directory holding the busybox file, in which whatever is
already present at a command name resolves (no dangling links there), the
link-creation loop succeeds; an existing entry at a command name is left
exactly as it was, a free command name receives a symbolic link to
`busybox`, and running the loop a second time returns the same directory
unchanged. -/
theorem claim_C9_links_no_overwrite_idempotent (b : BinDir)
    (hbb : BinDir.find? b "busybox" = some Entry.file)
    (hres : ∀ c ∈ commands, BinDir.find? b c ≠ none →
      BinDir.existsAt b 40 c = true) :
    ∃ b', setupLinks b = .ok b' ∧
      (∀ c ∈ commands, ∀ e, BinDir.find? b c = some e → BinDir.find? b' c = some e) ∧
      (∀ c ∈ commands, BinDir.find? b c = none →
        BinDir.find? b' c = some (Entry.symlink "busybox")) ∧
      setupLinks b' = .ok b' := by
  obtain ⟨b', hok, hext, hbb', hmk, hall⟩ := setupLinksAux_spec commands b ⟨hbb, hres⟩
  exact ⟨b', hok, fun c _ e he => hext c e he, hmk,
    setupLinksAux_idem commands b' hall⟩

/-- C9 witness: starting from busybox plus a pre-existing regular file at
`ls`, the loop succeeds, keeps `ls` as a file, fills the other names with
links, and is idempotent. -/
theorem claim_C9_links_no_overwrite_idempotent_witness :
    (BinDir.find? binSeed "busybox" = some Entry.file ∧
      ∀ c ∈ commands, BinDir.find? binSeed c ≠ none →
        BinDir.existsAt binSeed 40 c = true) ∧
    ∃ b', setupLinks binSeed = .ok b' ∧
      (∀ c ∈ commands, ∀ e, BinDir.find? binSeed c = some e →
        BinDir.find? b' c = some e) ∧
      (∀ c ∈ commands, BinDir.find? binSeed c = none →
        BinDir.find? b' c = some (Entry.symlink "busybox")) ∧
      setupLinks b' = .ok b' :=
  ⟨⟨by decide, by decide⟩,
   claim_C9_links_no_overwrite_idempotent binSeed (by decide) (by decide)⟩

/-- C10: the guard `link.exists()` follows symbolic links, so it reports a
dangling link at the first command name (`sh`) as nonexistent; the
subsequent `symlink_to` then raises `FileExistsError` and the link loop —
hence filesystem provisioning — aborts instead of leaving the entry
untouched. -/
theorem claim_C10_dangling_symlink_raises (b : BinDir) (t : String)
    (hsh : BinDir.find? b "sh" = some (Entry.symlink t))
    (ht : BinDir.find? b t = none) :
    BinDir.existsAt b 40 "sh" = false ∧
    setupLinks b = .error .fileExistsError := by
  have hdang := existsAt_dangling hsh ht 40
  refine ⟨hdang, ?_⟩
  have hstep : linkStep b "sh" = .error .fileExistsError := by
    simp [linkStep, hdang, hsh]
  simp [setupLinks, commands, setupLinksAux, hstep]

/-- C10 witness: a dangling `sh -> dash` link is reported nonexistent by the
guard and makes the loop raise `FileExistsError`. -/
theorem claim_C10_dangling_symlink_raises_witness :
    (BinDir.find? binDangling "sh" = some (Entry.symlink "dash") ∧
      BinDir.find? binDangling "dash" = none) ∧
    (BinDir.existsAt binDangling 40 "sh" = false ∧
      setupLinks binDangling = .error .fileExistsError) :=
  ⟨⟨by decide, by decide⟩,
   claim_C10_dangling_symlink_raises binDangling "dash" (by decide) (by decide)⟩

end PyContainer
